import Mathlib

/-!
Shallow embedding of `scripts/dr_visibilities.py` (ovro_data_recorder), the
data recorder for slow/fast visibility data, together with proofs about the
properties its specification states.

Conventions of the embedding:
* Python arbitrary-precision integers are `Int` (or `Nat` where the source
  value is a count); real arithmetic is carried out over `ℚ`.  The final
  arithmetic of `quota_size` is done with IEEE doubles in the source; it is
  modelled exactly over `ℚ`, and every concrete value proved below is one on
  which the double computation is exact.
* Python strings are `List Char`; `str.split(sep, 1)`, `str.strip()` and the
  `int()` constructor are modelled by `splitOnce`, `pyStrip` and `pyInt`.
* numpy arrays are index functions; complex entries are pairs `ℚ × ℚ` of
  (real, imaginary) parts.  `ndarray.imag` / `ndarray.real` of a complex
  array are views, which is reflected where the source relies on it.
* Fallible code returns `Option` or a small result inductive.
-/

/-! ### Python string primitives used by `quota_size` -/

/-- Characters removed by Python's `str.strip()` (ASCII whitespace,
identified by code point). -/
def isPySpace (c : Char) : Bool :=
  c.toNat = 32 || c.toNat = 9 || c.toNat = 10 || c.toNat = 13 ||
  c.toNat = 11 || c.toNat = 12

/-- Python `value.strip()`: drop whitespace from both ends. -/
def pyStrip (s : List Char) : List Char :=
  ((s.dropWhile isPySpace).reverse.dropWhile isPySpace).reverse

/-- Python `value.split(sep, 1)` followed by unpacking into two variables:
`some (before, after)` when `sep` occurs in `s` (split at the first
occurrence), `none` when it does not (the two-variable unpacking of the
one-element list raises `ValueError` in the source). -/
def splitOnce : List Char → Char → Option (List Char × List Char)
  | [], _ => none
  | c :: rest, sep =>
    if c = sep then some ([], rest)
    else
      match splitOnce rest sep with
      | none => none
      | some pq => some (c :: pq.1, pq.2)

/-- ASCII decimal digit, identified by code point. -/
def isAsciiDigit (c : Char) : Bool := 48 ≤ c.toNat && c.toNat ≤ 57

/-- Numeric value of a string of ASCII digits. -/
def digitsVal (s : List Char) : ℕ :=
  s.foldl (fun a c => 10 * a + (c.toNat - 48)) 0

/-- A non-empty all-digit string and its value, else `none`. -/
def pyDigits (s : List Char) : Option ℕ :=
  match s with
  | [] => none
  | _ => if s.all isAsciiDigit then some (digitsVal s) else none

/-- Python `int(s)` after stripping: an optional single sign followed by a
non-empty digit string.  (Underscore digit grouping is not used by any input
considered here.) -/
def pyIntCore (s : List Char) : Option ℤ :=
  match s with
  | [] => none
  | c :: rest =>
    if c = '+' then (pyDigits rest).map (fun n => (n : ℤ))
    else if c = '-' then (pyDigits rest).map (fun n => -(n : ℤ))
    else (pyDigits (c :: rest)).map (fun n => (n : ℤ))

/-- Python `int(s)` for a string argument: `int()` strips whitespace itself. -/
def pyInt (s : List Char) : Option ℤ := pyIntCore (pyStrip s)

/-- Python `int(x)` for a float (here: exact rational) argument: truncation
toward zero. -/
def truncPy (q : ℚ) : ℤ := q.num.tdiv q.den

/-! ### `quota_size` (dr_visibilities.py lines 58-97) -/

/-- One `try` block of `quota_size` (the `'w'`, `'d'` and `':'` blocks are
identical up to the separator).  Returns the component variable, the found
flag, and the remaining `value` string.  Mirrors the source exactly:

* no separator: the unpacking raises, everything is left unchanged;
* separator found but `int` fails: the component variable has already been
  rebound to the *string* before `int` raised (hence `Sum.inr`), and `value`
  has been rebound to the unstripped remainder;
* both succeed: integer component, stripped remainder, flag set. -/
def quotaPhase (sep : Char) (value : List Char) :
    (ℤ ⊕ List Char) × Bool × List Char :=
  match splitOnce value sep with
  | none => (Sum.inl 0, false, value)
  | some pq =>
    match pyInt pq.1 with
    | none => (Sum.inr pq.1, false, pq.2)
    | some n => (Sum.inl n, true, pyStrip pq.2)

/-- The variables of `quota_size` after its four `try` blocks.  `w`, `d`, `h`
are `Sum.inr` a string when the split succeeded but `int()` raised (the
Python variable then holds the prefix string). -/
structure QuotaState where
  w : ℤ ⊕ List Char
  d : ℤ ⊕ List Char
  h : ℤ ⊕ List Char
  m : ℤ
  wfound : Bool
  dfound : Bool
  hfound : Bool
  mfound : Bool
deriving DecidableEq

/-- Run the four parsing blocks of `quota_size`. -/
def quotaParse (s : List Char) : QuotaState :=
  let pw := quotaPhase 'w' s
  let pd := quotaPhase 'd' pw.2.2
  let ph := quotaPhase ':' pd.2.2
  let pm := pyInt ph.2.2
  { w := pw.1, d := pd.1, h := ph.1,
    m := pm.getD 0,
    wfound := pw.2.1, dfound := pd.2.1, hfound := ph.2.1,
    mfound := pm.isSome }

/-- The test `wfound or dfound or hfound or mfound` (line 93). -/
def quotaAnyFound (st : QuotaState) : Bool :=
  st.wfound || st.dfound || st.hfound || st.mfound

/-- Outcome of `quota_size`: a returned number of seconds, the explicit
`ValueError` of line 94, or the `TypeError` that line 96 raises when one of
`w`, `d`, `h` is still bound to a string (string repetition/concatenation
meets an int or float addend). -/
inductive QuotaResult where
  | ok (seconds : ℤ)
  | valueError
  | typeError
deriving DecidableEq

/-- Function `quota_size(value)` (lines 58-97): parse the four components, raise if
none was found, else return `int((7*24*w + 24*d + h + m/60.0) * 3600)`. -/
def quota_size (s : List Char) : QuotaResult :=
  let st := quotaParse s
  if quotaAnyFound st then
    match st.w, st.d, st.h with
    | Sum.inl wi, Sum.inl di, Sum.inl hi =>
      QuotaResult.ok
        (truncPy ((7 * 24 * (wi : ℚ) + 24 * (di : ℚ) + (hi : ℚ) +
          (st.m : ℚ) / 60) * 3600))
    | _, _, _ => QuotaResult.typeError
  else QuotaResult.valueError

/-! ### Capture producer fill level (CaptureOp.main lines 170-184) -/

/-- Fill level of the last gulp from the byte-counter deltas:
`float(new_good-good) / (new_good-good + new_missing-missing)`, with the
`ZeroDivisionError` handler substituting `0.0` (lines 175-178). -/
def computeFillLevel (dgood dmissing : ℤ) : ℚ :=
  if (dgood : ℚ) + (dmissing : ℚ) = 0 then 0
  else (dgood : ℚ) / ((dgood : ℚ) + (dmissing : ℚ))

/-- Capacity of `FILL_QUEUE = queue.Queue(maxsize=1000)` (line 100). -/
def FILL_QUEUE_maxsize : ℕ := 1000

/-- Publication `FILL_QUEUE.put_nowait(fill_level)` with `queue.Full` swallowed
(lines 181-184): FIFO append unless the queue is at capacity, in which case
the new sample is dropped. -/
def fillQueuePutNowait (q : List ℚ) (x : ℚ) : List ℚ :=
  if q.length < FILL_QUEUE_maxsize then q ++ [x] else q

/-! ### Writer fill-level poll (WriterOp.main lines 1073-1079) -/

/-- Poll `FILL_QUEUE.get_nowait()` with the `queue.Empty` handler: returns the
fill level used, the remaining queue, and whether the warning was logged. -/
def pollFillLevel (q : List ℚ) : ℚ × List ℚ × Bool :=
  match q with
  | [] => (-1, [], true)
  | x :: rest => (x, rest, false)

/-! ### Writer persistent write-error state (WriterOp.main lines 1089-1109) -/

/-- The `write_error_asserted` flag and `write_error_counter` of
`WriterOp.main` (lines 1045-1046). -/
structure WriteErrState where
  asserted : Bool
  counter : ℕ
deriving DecidableEq

/-- Effect of a successful `active_op.write` (lines 1094-1098): when the
error state is asserted, de-assert it, reset the counter to 0 and log
(`true` in the second component); otherwise nothing happens. -/
def writeSuccessStep (s : WriteErrState) : WriteErrState × Bool :=
  if s.asserted then ({ asserted := false, counter := 0 }, true) else (s, false)

/-- Effect of a `write` exception (lines 1100-1109): assert the state and
log the initial error if it was not yet asserted (second component),
increment the counter, and log again when the incremented counter is a
multiple of 50 (third component). -/
def writeFailStep (s : WriteErrState) : WriteErrState × Bool × Bool :=
  ({ asserted := true, counter := s.counter + 1 }, !s.asserted,
    (s.counter + 1) % 50 == 0)

/-- Run of `n` consecutive `write` exceptions starting from the clean state:
final state, number of initial-error log lines, number of every-50th log
lines. -/
def failRun : ℕ → WriteErrState × ℕ × ℕ
  | 0 => ({ asserted := false, counter := 0 }, 0, 0)
  | n + 1 =>
    let r := failRun n
    let step := writeFailStep r.1
    (step.1, r.2.1 + (if step.2.1 then 1 else 0),
      r.2.2 + (if step.2.2 then 1 else 0))

/-! ### Writer normalization (WriterOp.main lines 1040, 1064-1071) -/

/-- Line 1040, `norm_factor = navg // (2*NCHAN) * (4 if self.fast else 1)`:
Python `//` is floor division, carried out here on naturals.  `NCHAN` is the
total channel count constant imported from `mnc.common`; it is kept as a
parameter. -/
def norm_factor (navg NCHAN : ℕ) (fast : Bool) : ℕ :=
  navg / (2 * NCHAN) * (if fast then 4 else 1)

/-- The specification's reading of the same quantity: the real-number
quotient `navg / (2·NCHAN)` scaled by 4 in fast mode. -/
def norm_factor_spec (navg NCHAN : ℕ) (fast : Bool) : ℚ :=
  (navg : ℚ) / (2 * NCHAN) * (if fast then 4 else 1)

/-- One element of `cdata` after `cdata = idata[...,0] + 1j*idata[...,1]`
and `cdata /= norm_factor` (lines 1064-1071): the complex value
`(re + i·im) / norm` as a (real, imaginary) pair. -/
def cdataElem (norm : ℚ) (re im : ℤ) : ℚ × ℚ :=
  ((re : ℚ) / norm, (im : ℚ) / norm)

/-! ### Writer `latest_frequency` emissions (WriterOp.main lines 1042, 1134) -/

/-- A `latest_frequency` monitor-point emission: a frequency in Hz, or the
final `None`. -/
inductive FreqEvent where
  | freq (hz : ℚ)
  | null
deriving DecidableEq

/-- Modelled from the spec: `chan_to_freq` of `mnc.common` (an external
collaborator) maps a channel index to Hz as `chan0 · CHAN_BW`; `CHAN_BW` is
kept as a parameter. -/
def chan_to_freq (CHAN_BW : ℚ) (chan0 : ℕ) : ℚ := (chan0 : ℚ) * CHAN_BW

/-- The sequence of `latest_frequency` emissions of `WriterOp.main`, given
the `chan0` values of the sequences read: line 1042 runs once per sequence
inside the `for iseq` loop, and line 1134 runs once after the loop exits. -/
def writerFreqTrace (CHAN_BW : ℚ) (seqs : List ℕ) : List FreqEvent :=
  (seqs.map fun chan0 => FreqEvent.freq (chan_to_freq CHAN_BW chan0)) ++
    [FreqEvent.null]

/-- The claim's reading of the same trace: a null emission follows each
individual sequence's end. -/
def writerFreqTraceClaimed (CHAN_BW : ℚ) (seqs : List ℕ) : List FreqEvent :=
  seqs.flatMap fun chan0 =>
    [FreqEvent.freq (chan_to_freq CHAN_BW chan0), FreqEvent.null]

/-! ### Per-gulp `time_tag` advance of the five consumer stages -/

/-- Update `time_tag += navg * self.ntime_gulp` in `SpectraOp.main` (line 423). -/
def spectraTimeTagStep (time_tag navg ntime_gulp : ℕ) : ℕ :=
  time_tag + navg * ntime_gulp

/-- Update `time_tag += navg * self.ntime_gulp` in `BaselineOp.main` (line 582). -/
def baselineTimeTagStep (time_tag navg ntime_gulp : ℕ) : ℕ :=
  time_tag + navg * ntime_gulp

/-- Update `time_tag += navg * self.ntime_gulp` in `ImageOp.main` (line 872). -/
def imageTimeTagStep (time_tag navg ntime_gulp : ℕ) : ℕ :=
  time_tag + navg * ntime_gulp

/-- Update `time_tag += navg * self.ntime_gulp` in `StatisticsOp.main` (line 975). -/
def statisticsTimeTagStep (time_tag navg ntime_gulp : ℕ) : ℕ :=
  time_tag + navg * ntime_gulp

/-- Update `time_tag += navg` in `WriterOp.main` (line 1120): no `ntime_gulp`
factor. -/
def writerTimeTagStep (time_tag navg : ℕ) : ℕ := time_tag + navg

/-- Iterated application, `k` steps, of a per-gulp update: the value observed at the
`k`-th gulp of a sequence. -/
def iterateStep (f : ℕ → ℕ) : ℕ → ℕ → ℕ
  | 0, t => t
  | k + 1, t => iterateStep f k (f t)

/-! ### Offline producer sky-model fallback (DummyOp.main lines 215-241) -/

/-- Line 223, `nchan = 192 // (4 if self.fast else 1)`. -/
def dummy_nchan (fast : Bool) : ℕ := 192 / (if fast then 4 else 1)

/-- The channel stride of `vis_base[:self.nbl, ::(4 if self.fast else 1), :]`
(line 236). -/
def chan_step (fast : Bool) : ℕ := if fast then 4 else 1

/-- Length of the numpy basic slice `a[::step]` over an axis of length `n`. -/
def slicedLen (n step : ℕ) : ℕ := (n + step - 1) / step

/-- Scaling `(x1000).astype(numpy.int32)` on an exact value (lines 237-238):
truncation toward zero after scaling by 1000 (the fallback values are all
zero, so `int32` wrap-around cannot occur). -/
def scale1000 (q : ℚ) : ℤ := truncPy (q * 1000)

/-- The model-file fallback (lines 229-241): `vis_base` is replaced by
complex zeros of shape `(nbl, nchan, npol)`, its channel axis is re-sliced
with the fast-mode stride, scaled to `int32`, and written into a fresh
`int32` zeros array of shape `(nbl, nchan, npol, 2)`.  The final assignment
`vis_base[...,0] = vis_base_r` broadcasts only when the sliced channel count
equals `nchan` (or is 1); otherwise numpy raises, modelled as `none`. -/
def visBaseIntFallback (fast : Bool) : Option (ℕ → ℕ → ℕ → ℤ × ℤ) :=
  if slicedLen (dummy_nchan fast) (chan_step fast) = dummy_nchan fast ∨
      slicedLen (dummy_nchan fast) (chan_step fast) = 1 then
    some (fun _ _ _ => (scale1000 0, scale1000 0))
  else none

/-- One element of an emitted gulp:
`temp = vis_base + (noise).astype(numpy.int32)` (line 270), with the noise
term kept abstract. -/
def dummyGulpElem (vb noise : ℕ → ℕ → ℕ → ℤ × ℤ) (b c p : ℕ) : ℤ × ℤ :=
  ((vb b c p).1 + (noise b c p).1, (vb b c p).2 + (noise b c p).2)

/-! ### Imager Stokes construction (ImageOp._plot_images lines 724-730)

The `baselines` argument is the valid-row selection of the
conjugate-doubled array; it is modelled as an index function
row → channel → polarization → complex, with `nrow` its row count
(`baselinesV.shape[0]`). -/

/-- Complex addition on (real, imaginary) pairs. -/
def cAdd (z z2 : ℚ × ℚ) : ℚ × ℚ := (z.1 + z2.1, z.2 + z2.2)

/-- Complex subtraction on (real, imaginary) pairs. -/
def cSub (z z2 : ℚ × ℚ) : ℚ × ℚ := (z.1 - z2.1, z.2 - z2.2)

/-- Multiplication by `1j`. -/
def cMulI (z : ℚ × ℚ) : ℚ × ℚ := (-z.2, z.1)

/-- Line 725, `baselinesI = baselines[...,0] + baselines[...,3]`. -/
def baselinesI (b : ℕ → ℕ → ℕ → ℚ × ℚ) (k c : ℕ) : ℚ × ℚ :=
  cAdd (b k c 0) (b k c 3)

/-- Line 726, `baselinesV = baselines[...,1] - baselines[...,2]`. -/
def baselinesV0 (b : ℕ → ℕ → ℕ → ℚ × ℚ) (k c : ℕ) : ℚ × ℚ :=
  cSub (b k c 1) (b k c 2)

/-- Line 727, `baselinesV[baselinesV.shape[0]//2:,:] *= 1j`: multiply the
second half of the rows by `1j`. -/
def baselinesVhalf (nrow : ℕ) (b : ℕ → ℕ → ℕ → ℚ × ℚ) (k c : ℕ) : ℚ × ℚ :=
  if nrow / 2 ≤ k then cMulI (baselinesV0 b k c) else baselinesV0 b k c

/-- Lines 728-730: `temp = baselinesV.imag` is a numpy *view*, so after
`baselinesV.imag = baselinesV.real` the name `temp` reads the copied real
parts, and `baselinesV.real = -temp` then negates them; the net per-element
effect on every row is `(re, im) ↦ (-re, re)`. -/
def baselinesV (nrow : ℕ) (b : ℕ → ℕ → ℕ → ℚ × ℚ) (k c : ℕ) : ℚ × ℚ :=
  (-(baselinesVhalf nrow b k c).1, (baselinesVhalf nrow b k c).1)

/-- A concrete two-row baseline array with `XY = 1 + 2i` and the other
polarization products zero. -/
def bCex : ℕ → ℕ → ℕ → ℚ × ℚ := fun _ _ p => if p = 1 then (1, 2) else (0, 0)

/-- A concrete two-row baseline array with `XY = 3i`, `YX = 5`. -/
def bWit : ℕ → ℕ → ℕ → ℚ × ℚ := fun _ _ p =>
  if p = 1 then (0, 3) else if p = 2 then (5, 0) else (0, 0)

/-- Truncation toward zero of an integer is that integer. -/
theorem truncPy_intCast (k : ℤ) : truncPy ((k : ℚ)) = k := by
  simp [truncPy]

/-- A split on a character that does not occur fails. -/
theorem splitOnce_eq_none {s : List Char} {sep : Char}
    (h : ∀ a ∈ s, ¬a = sep) : splitOnce s sep = none := by
  induction s with
  | nil => rfl
  | cons c rest ih =>
    have hc : ¬c = sep := h c (List.mem_cons_self c rest)
    have hr : splitOnce rest sep = none :=
      ih (fun a ha => h a (List.mem_cons_of_mem c ha))
    simp [splitOnce, hc, hr]

/-- The function `dropWhile` is the identity when no element satisfies the test. -/
theorem dropWhile_eq_self_of_forall {p : Char → Bool} {s : List Char}
    (h : ∀ a ∈ s, p a = false) : s.dropWhile p = s := by
  cases s with
  | nil => rfl
  | cons c rest => simp [List.dropWhile_cons, h c (List.mem_cons_self c rest)]

/-- Stripping a string with no whitespace is the identity. -/
theorem pyStrip_eq_self {s : List Char} (h : ∀ a ∈ s, isPySpace a = false) :
    pyStrip s = s := by
  unfold pyStrip
  rw [dropWhile_eq_self_of_forall h,
    dropWhile_eq_self_of_forall (fun a ha => h a (List.mem_reverse.mp ha)),
    List.reverse_reverse]

/-- Code-point bounds of an ASCII digit. -/
theorem isAsciiDigit_toNat {c : Char} (h : isAsciiDigit c = true) :
    48 ≤ c.toNat ∧ c.toNat ≤ 57 := by
  simpa [isAsciiDigit, Bool.and_eq_true, decide_eq_true_eq] using h

/-- Digits are not whitespace. -/
theorem digit_not_space {c : Char} (h : isAsciiDigit c = true) :
    isPySpace c = false := by
  obtain ⟨h1, h2⟩ := isAsciiDigit_toNat h
  simp only [isPySpace, Bool.or_eq_false_iff, decide_eq_false_iff_not]
  omega

/-- A digit differs from any non-digit character. -/
theorem digit_ne_of_not_digit {c d : Char} (h : isAsciiDigit c = true)
    (hd : isAsciiDigit d = false) : ¬c = d := by
  intro he
  rw [he, hd] at h
  cases h

/-- Python `int()` accepts a non-empty all-digit string and returns its value. -/
theorem pyInt_digits {s : List Char} (hne : s ≠ [])
    (hdig : s.all isAsciiDigit = true) :
    pyInt s = some ((digitsVal s : ℕ) : ℤ) := by
  have hall : ∀ a ∈ s, isAsciiDigit a = true := by
    simpa [List.all_eq_true] using hdig
  have hstrip : pyStrip s = s :=
    pyStrip_eq_self (fun a ha => digit_not_space (hall a ha))
  unfold pyInt
  rw [hstrip]
  cases s with
  | nil => exact absurd rfl hne
  | cons c rest =>
    have hc := hall c (List.mem_cons_self c rest)
    have hcp : ¬c = '+' := digit_ne_of_not_digit hc (by decide)
    have hcm : ¬c = '-' := digit_ne_of_not_digit hc (by decide)
    simp [pyIntCore, hcp, hcm, pyDigits, hdig]

/-- After the four parse blocks on a non-empty all-digit input, only the
minutes component is found, holding the digits' value. -/
theorem quotaParse_digits {s : List Char} (hne : s ≠ [])
    (hdig : s.all isAsciiDigit = true) :
    quotaParse s = ⟨Sum.inl 0, Sum.inl 0, Sum.inl 0, ((digitsVal s : ℕ) : ℤ),
      false, false, false, true⟩ := by
  have hall : ∀ a ∈ s, isAsciiDigit a = true := by
    simpa [List.all_eq_true] using hdig
  have hw : splitOnce s 'w' = none :=
    splitOnce_eq_none (fun a ha => digit_ne_of_not_digit (hall a ha) (by decide))
  have hd : splitOnce s 'd' = none :=
    splitOnce_eq_none (fun a ha => digit_ne_of_not_digit (hall a ha) (by decide))
  have hh : splitOnce s ':' = none :=
    splitOnce_eq_none (fun a ha => digit_ne_of_not_digit (hall a ha) (by decide))
  have hm := pyInt_digits hne hdig
  simp [quotaParse, quotaPhase, hw, hd, hh, hm]

/-- After the four parse blocks, when the `'w'` split succeeds, its prefix
parses as an integer and the remainder strips to empty, only the weeks
component is found and the rest stays zero. -/
theorem quotaParse_w_only {s pre post : List Char} {n : ℤ}
    (h1 : splitOnce s 'w' = some (pre, post)) (h2 : pyInt pre = some n)
    (h3 : pyStrip post = []) :
    quotaParse s = ⟨Sum.inl n, Sum.inl 0, Sum.inl 0, 0,
      true, false, false, false⟩ := by
  have hph : quotaPhase 'w' s = (Sum.inl n, true, ([] : List Char)) := by
    simp only [quotaPhase, h1, h2, h3]
  simp only [quotaParse, hph]
  rfl

/-- C5: `quota_size` raises `ValueError` exactly when none of the four
components parses; a `'w'` component with empty remainder leaves the other
components zero and does not raise (concretely, `"1w"` gives 604800 s, an
input on which the source's double arithmetic is exact); a bare non-empty
digit string is taken as minutes and does not raise.  The weeks and minutes
values of general inputs are stated as parse outcomes, not as exact returned
seconds, because the source computes the final seconds in IEEE doubles,
which round for large components. -/
theorem quota_size_error_cases :
    (∀ s : List Char,
      quota_size s = QuotaResult.valueError ↔
        quotaAnyFound (quotaParse s) = false)
  ∧ (∀ (s pre post : List Char) (n : ℤ),
      splitOnce s 'w' = some (pre, post) → pyInt pre = some n →
      pyStrip post = [] →
      quotaParse s = ⟨Sum.inl n, Sum.inl 0, Sum.inl 0, 0,
        true, false, false, false⟩ ∧
      ∃ k, quota_size s = QuotaResult.ok k)
  ∧ quota_size ['1', 'w'] = QuotaResult.ok 604800
  ∧ (∀ s : List Char, s ≠ [] → s.all isAsciiDigit = true →
      (quotaParse s).mfound = true ∧
      (quotaParse s).m = ((digitsVal s : ℕ) : ℤ) ∧
      ∃ k, quota_size s = QuotaResult.ok k) := by
  have part1 : ∀ s : List Char,
      quota_size s = QuotaResult.valueError ↔
        quotaAnyFound (quotaParse s) = false := by
    intro s
    cases hA : quotaAnyFound (quotaParse s) with
    | false => simp [quota_size, hA]
    | true =>
      simp only [quota_size, hA, if_true]
      rcases hw : (quotaParse s).w with n | str <;>
        rcases hd : (quotaParse s).d with n2 | str2 <;>
        rcases hh : (quotaParse s).h with n3 | str3 <;>
        simp [hw, hd, hh]
  have part2 : ∀ (s pre post : List Char) (n : ℤ),
      splitOnce s 'w' = some (pre, post) → pyInt pre = some n →
      pyStrip post = [] →
      quotaParse s = ⟨Sum.inl n, Sum.inl 0, Sum.inl 0, 0,
        true, false, false, false⟩ ∧
      ∃ k, quota_size s = QuotaResult.ok k := by
    intro s pre post n h1 h2 h3
    have hp := quotaParse_w_only h1 h2 h3
    refine ⟨hp, truncPy ((7 * 24 * (n : ℚ) + 24 * ((0 : ℤ) : ℚ) +
      ((0 : ℤ) : ℚ) + ((0 : ℤ) : ℚ) / 60) * 3600), ?_⟩
    simp [quota_size, hp, quotaAnyFound]
  refine ⟨part1, part2, ?_, ?_⟩
  · have h1 : splitOnce ['1', 'w'] 'w' = some (['1'], []) := by decide
    have h2 : pyInt ['1'] = some 1 := by decide
    have h3 : pyStrip ([] : List Char) = [] := rfl
    have hp := quotaParse_w_only h1 h2 h3
    have harg : (7 * 24 * ((1 : ℤ) : ℚ) + 24 * ((0 : ℤ) : ℚ) +
        ((0 : ℤ) : ℚ) + ((0 : ℤ) : ℚ) / 60) * 3600 = ((604800 : ℤ) : ℚ) := by
      norm_num
    simp only [quota_size, hp, quotaAnyFound, Bool.or_self, Bool.or_true,
      Bool.true_or, Bool.false_or, Bool.or_false, if_true]
    rw [harg, truncPy_intCast]
  · intro s hne hdig
    have hp := quotaParse_digits hne hdig
    refine ⟨by rw [hp], by rw [hp], ?_⟩
    refine ⟨truncPy ((7 * 24 * ((0 : ℤ) : ℚ) + 24 * ((0 : ℤ) : ℚ) +
      ((0 : ℤ) : ℚ) + (((digitsVal s : ℕ) : ℤ) : ℚ) / 60) * 3600), ?_⟩
    simp [quota_size, hp, quotaAnyFound]

/-- C4: `quota_size "1w 2d 3:30"` returns 790200 seconds. -/
theorem quota_size_example :
    quota_size ['1', 'w', ' ', '2', 'd', ' ', '3', ':', '3', '0'] =
      QuotaResult.ok 790200 := by
  have hp : quotaParse ['1', 'w', ' ', '2', 'd', ' ', '3', ':', '3', '0'] =
      ⟨Sum.inl 1, Sum.inl 2, Sum.inl 3, 30, true, true, true, true⟩ := by
    decide
  have harg : (7 * 24 * ((1 : ℤ) : ℚ) + 24 * ((2 : ℤ) : ℚ) + ((3 : ℤ) : ℚ) +
      ((30 : ℤ) : ℚ) / 60) * 3600 = ((790200 : ℤ) : ℚ) := by
    norm_num
  simp only [quota_size, hp, quotaAnyFound, Bool.or_self, if_true]
  rw [harg, truncPy_intCast]

/-- C2: one write success after one or more write exceptions de-asserts the
error state, resets the counter to 0 and logs the de-assert; every exception
leaves the state asserted; the every-50th log fires exactly when the
post-increment counter is a multiple of 50; and a run of `n` consecutive
exceptions from the clean state logs the initial error exactly once and the
re-assert line exactly `n / 50` times. -/
theorem write_error_protocol :
    (∀ s : WriteErrState, s.asserted = true →
      writeSuccessStep s = ({ asserted := false, counter := 0 }, true))
  ∧ (∀ s : WriteErrState, (writeFailStep s).1.asserted = true)
  ∧ (∀ s : WriteErrState,
      ((writeFailStep s).2.2 = true ↔ (writeFailStep s).1.counter % 50 = 0))
  ∧ (∀ n : ℕ, failRun n =
      ({ asserted := decide (0 < n), counter := n }, min n 1, n / 50)) := by
  refine ⟨?_, ?_, ?_, ?_⟩
  · intro s hs
    simp [writeSuccessStep, hs]
  · intro s
    rfl
  · intro s
    simp [writeFailStep]
  · intro n
    induction n with
    | zero => rfl
    | succ k ih =>
      simp only [failRun, ih, writeFailStep]
      simp [Prod.mk.injEq, WriteErrState.mk.injEq]
      constructor
      · split_ifs <;> omega
      · split_ifs <;> omega

/-- Witness for C2 at the concrete asserted state with counter 7. -/
theorem write_error_protocol_witness :
    ({ asserted := true, counter := 7 } : WriteErrState).asserted = true ∧
    writeSuccessStep { asserted := true, counter := 7 } =
      ({ asserted := false, counter := 0 }, true) :=
  ⟨rfl, write_error_protocol.1 { asserted := true, counter := 7 } rfl⟩

/-- C8: the writer's per-gulp fill-level poll uses `-1.0` and warns exactly
when the queue is empty, and otherwise returns the popped front value
without warning. -/
theorem writer_fill_poll :
    (∀ q : List ℚ, q = [] → pollFillLevel q = (-1, [], true))
  ∧ (∀ (q : List ℚ) (x : ℚ) (rest : List ℚ), q = x :: rest →
      pollFillLevel q = (x, rest, false)) := by
  constructor
  · intro q hq
    rw [hq]
    rfl
  · intro q x rest hq
    rw [hq]
    rfl

/-- Witness for C8 at the empty queue and at a one-element queue. -/
theorem writer_fill_poll_witness :
    pollFillLevel [] = (-1, [], true) ∧
    pollFillLevel [(1 : ℚ) / 2] = (1 / 2, [], false) :=
  ⟨writer_fill_poll.1 [] rfl, writer_fill_poll.2 [(1 : ℚ) / 2] (1 / 2) [] rfl⟩

/-- C10: the capture producer's fill level is total: it is 0 when both byte
deltas are zero, lies in [0, 1] for non-negative deltas, and a full
fill queue drops the new sample without error. -/
theorem capture_fill_level_total :
    computeFillLevel 0 0 = 0
  ∧ (∀ dgood dmissing : ℤ, 0 ≤ dgood → 0 ≤ dmissing →
      0 ≤ computeFillLevel dgood dmissing ∧
        computeFillLevel dgood dmissing ≤ 1)
  ∧ (∀ (q : List ℚ) (x : ℚ), q.length = FILL_QUEUE_maxsize →
      fillQueuePutNowait q x = q) := by
  refine ⟨by simp [computeFillLevel], ?_, ?_⟩
  · intro dg dm hg hm
    have hg2 : (0 : ℚ) ≤ (dg : ℚ) := by exact_mod_cast hg
    have hm2 : (0 : ℚ) ≤ (dm : ℚ) := by exact_mod_cast hm
    by_cases h : (dg : ℚ) + (dm : ℚ) = 0
    · constructor <;> simp [computeFillLevel, h]
    · have hpos : (0 : ℚ) < (dg : ℚ) + (dm : ℚ) :=
        lt_of_le_of_ne (by linarith) (Ne.symm h)
      constructor
      · simp only [computeFillLevel, h, if_false]
        exact div_nonneg hg2 (le_of_lt hpos)
      · simp only [computeFillLevel, h, if_false]
        rw [div_le_one hpos]
        linarith
  · intro q x hq
    simp [fillQueuePutNowait, FILL_QUEUE_maxsize, hq]

/-- Witness for C10 at deltas (3, 1) and a full 1000-element queue. -/
theorem capture_fill_level_witness :
    (0 ≤ computeFillLevel 3 1 ∧ computeFillLevel 3 1 ≤ 1) ∧
    fillQueuePutNowait (List.replicate 1000 0) (1 / 2) =
      List.replicate 1000 0 :=
  ⟨capture_fill_level_total.2.1 3 1 (by norm_num) (by norm_num),
   capture_fill_level_total.2.2 (List.replicate 1000 0) (1 / 2)
     (by rw [List.length_replicate]; rfl)⟩

/-- Witness for C5: the `"1w"` component case and the bare-digits case at
concrete inputs. -/
theorem quota_size_error_cases_witness :
    (quotaParse ['1', 'w'] = ⟨Sum.inl 1, Sum.inl 0, Sum.inl 0, 0,
        true, false, false, false⟩ ∧
      ∃ k, quota_size ['1', 'w'] = QuotaResult.ok k) ∧
    (quotaParse ['6', '5']).m = ((digitsVal ['6', '5'] : ℕ) : ℤ) :=
  ⟨quota_size_error_cases.2.1 ['1', 'w'] ['1'] [] 1 (by decide) (by decide)
      rfl,
    (quota_size_error_cases.2.2.2 ['6', '5'] (by decide) (by decide)).2.1⟩

/-- Iterating `(· + a)` adds `k · a`. -/
theorem iterateStep_add (a : ℕ) :
    ∀ k t : ℕ, iterateStep (fun x => x + a) k t = t + k * a := by
  intro k
  induction k with
  | zero =>
    intro t
    simp [iterateStep]
  | succ n ih =>
    intro t
    have hstep : iterateStep (fun x => x + a) (n + 1) t =
        iterateStep (fun x => x + a) n (t + a) := rfl
    rw [hstep, ih]
    ring

/-- C1 counterexample: with `navg = 10` and `ntime_gulp = 2` the writer
advances `time_tag` by 10 per gulp, not by `navg · ntime_gulp = 20` as the
claim states for every consumer stage. -/
theorem writer_time_tag_step_cex :
    writerTimeTagStep 100 10 = 110 ∧
    ¬writerTimeTagStep 100 10 = 100 + 10 * 2 := by
  decide

/-- C1 amended: per gulp, the spectra, baseline, imager and statistics
stages advance `time_tag` by exactly `navg · ntime_gulp`, while the writer
advances it by exactly `navg`; each observed sequence is strictly increasing
when the step is positive. -/
theorem time_tag_advance :
    ∀ t0 navg g k : ℕ,
      (iterateStep (fun t => spectraTimeTagStep t navg g) k t0 =
          t0 + k * (navg * g)
        ∧ iterateStep (fun t => baselineTimeTagStep t navg g) k t0 =
          t0 + k * (navg * g)
        ∧ iterateStep (fun t => imageTimeTagStep t navg g) k t0 =
          t0 + k * (navg * g)
        ∧ iterateStep (fun t => statisticsTimeTagStep t navg g) k t0 =
          t0 + k * (navg * g)
        ∧ iterateStep (fun t => writerTimeTagStep t navg) k t0 =
          t0 + k * navg)
      ∧ (0 < navg → 0 < g →
          iterateStep (fun t => spectraTimeTagStep t navg g) k t0 <
            iterateStep (fun t => spectraTimeTagStep t navg g) (k + 1) t0)
      ∧ (0 < navg →
          iterateStep (fun t => writerTimeTagStep t navg) k t0 <
            iterateStep (fun t => writerTimeTagStep t navg) (k + 1) t0) := by
  intro t0 navg g k
  simp only [spectraTimeTagStep, baselineTimeTagStep, imageTimeTagStep,
    statisticsTimeTagStep, writerTimeTagStep]
  have h1 := iterateStep_add (navg * g)
  have h2 := iterateStep_add navg
  refine ⟨⟨h1 k t0, h1 k t0, h1 k t0, h1 k t0, h2 k t0⟩, ?_, ?_⟩
  · intro hn hg
    have hp : 0 < navg * g := Nat.mul_pos hn hg
    rw [h1 k t0, h1 (k + 1) t0, add_one_mul]
    omega
  · intro hn
    rw [h2 k t0, h2 (k + 1) t0, add_one_mul]
    omega

/-- Witness for C1 at `t0 = 5`, `navg = 3`, `ntime_gulp = 2`, `k = 1`. -/
theorem time_tag_advance_witness :
    iterateStep (fun t => spectraTimeTagStep t 3 2) 1 5 <
      iterateStep (fun t => spectraTimeTagStep t 3 2) 2 5 :=
  (time_tag_advance 5 3 2 1).2.1 (by decide) (by decide)

/-- Casting a natural floor quotient to `ℚ` matches exact division exactly
when the divisor divides. -/
theorem natCast_div_eq_iff {a b : ℕ} (hb : 0 < b) :
    ((a / b : ℕ) : ℚ) = (a : ℚ) / (b : ℚ) ↔ b ∣ a := by
  have hbq : ((b : ℕ) : ℚ) ≠ 0 := Nat.cast_ne_zero.mpr (Nat.pos_iff_ne_zero.mp hb)
  constructor
  · intro h
    have h2 : ((a / b : ℕ) : ℚ) * (b : ℚ) = (a : ℚ) := by
      rw [h]
      field_simp
    have h3 : ((a / b * b : ℕ) : ℚ) = ((a : ℕ) : ℚ) := by
      push_cast
      exact h2
    have h4 : a / b * b = a := Nat.cast_injective h3
    refine ⟨a / b, ?_⟩
    rw [Nat.mul_comm] at h4
    exact h4.symm
  · intro h
    exact Nat.cast_div h hbq

/-- C3 counterexample: at `navg = 8193`, `NCHAN = 4096`, slow mode, the code
computes `norm_factor = 8193 // 8192 = 1`, while the claimed real-number
quotient is `8193/8192 ≠ 1`. -/
theorem writer_norm_factor_cex :
    norm_factor 8193 4096 false = 1 ∧
    ¬((norm_factor 8193 4096 false : ℕ) : ℚ) =
      norm_factor_spec 8193 4096 false := by
  constructor
  · rfl
  · norm_num [norm_factor, norm_factor_spec]

/-- C3 amended: the divisor is the *floor* quotient
`navg // (2·NCHAN) · (4 if fast else 1)`; it equals the claimed real-number
quotient if and only if `2·NCHAN` divides `navg`. -/
theorem writer_norm_factor :
    ∀ (navg NCHAN : ℕ) (fast : Bool), 0 < NCHAN →
      (((norm_factor navg NCHAN fast : ℕ) : ℚ) =
          norm_factor_spec navg NCHAN fast ↔ 2 * NCHAN ∣ navg) := by
  intro navg NCHAN fast hN
  have hb : 0 < 2 * NCHAN := by omega
  have base := natCast_div_eq_iff (a := navg) hb
  cases fast with
  | false =>
    simpa [norm_factor, norm_factor_spec] using base
  | true =>
    rw [norm_factor, norm_factor_spec]
    simp only [if_true]
    push_cast
    push_cast at base
    constructor
    · intro h
      exact base.mp (mul_right_cancel₀ (by norm_num : (4 : ℚ) ≠ 0) h)
    · intro h
      rw [base.mpr h]

/-- Witness for C3 at `navg = 8192`, `NCHAN = 4096`, slow mode, where
`2·NCHAN ∣ navg` holds and the two expressions agree. -/
theorem writer_norm_factor_witness :
    ((norm_factor 8192 4096 false : ℕ) : ℚ) =
      norm_factor_spec 8192 4096 false :=
  (writer_norm_factor 8192 4096 false (by norm_num)).mpr ⟨1, by norm_num⟩

/-- C6 counterexample: with `XY = 1 + 2i`, `YX = 0` the first-half row 0 of
the final V array is `(-1, 1)`, not the unrotated `XY − YX = (1, 2)` the
claim states. -/
theorem imager_stokes_cex :
    baselinesV0 bCex 0 0 = (1, 2) ∧
    baselinesV 2 bCex 0 0 = (-1, 1) ∧
    ¬baselinesV 2 bCex 0 0 = baselinesV0 bCex 0 0 := by
  refine ⟨?_, ?_, ?_⟩ <;>
    norm_num [baselinesV, baselinesVhalf, baselinesV0, bCex, cSub, cMulI,
      Prod.ext_iff]

/-- C6 amended: `I = XX + YY` on every row; `V` starts from `V0 = XY − YX`
and only the second half of the rows is multiplied by `i`, but the
real/imaginary swap of lines 728-730 acts on *every* row as
`(re, im) ↦ (−re, re)` because `temp` is a view: first-half rows end as
`(−Re V0, Re V0)` (not `V0` unrotated) and second-half rows as
`(Im V0, −Im V0)`. -/
theorem imager_stokes :
    ∀ (nrow : ℕ) (b : ℕ → ℕ → ℕ → ℚ × ℚ) (k c : ℕ),
      baselinesI b k c =
        ((b k c 0).1 + (b k c 3).1, (b k c 0).2 + (b k c 3).2)
      ∧ (k < nrow / 2 →
          baselinesV nrow b k c =
            (-(baselinesV0 b k c).1, (baselinesV0 b k c).1))
      ∧ (nrow / 2 ≤ k →
          baselinesV nrow b k c =
            ((baselinesV0 b k c).2, -(baselinesV0 b k c).2)) := by
  intro nrow b k c
  refine ⟨rfl, ?_, ?_⟩
  · intro hk
    have hk2 : ¬nrow / 2 ≤ k := by omega
    simp [baselinesV, baselinesVhalf, hk2]
  · intro hk
    simp [baselinesV, baselinesVhalf, cMulI, hk]

/-- Witness for C6 at a concrete first-half row of a two-row array. -/
theorem imager_stokes_witness :
    baselinesV 2 bWit 0 0 =
      (-(baselinesV0 bWit 0 0).1, (baselinesV0 bWit 0 0).1) :=
  (imager_stokes 2 bWit 0 0).2.1 (by decide)

/-- C7 counterexample: with two sequences the `latest_frequency` trace holds
a single null at the very end, not a null after each sequence's end as the
claim states. -/
theorem writer_freq_trace_cex :
    writerFreqTrace 1 [5, 7] =
      [FreqEvent.freq 5, FreqEvent.freq 7, FreqEvent.null] ∧
    writerFreqTraceClaimed 1 [5, 7] =
      [FreqEvent.freq 5, FreqEvent.null, FreqEvent.freq 7,
        FreqEvent.null] ∧
    ¬writerFreqTrace 1 [5, 7] = writerFreqTraceClaimed 1 [5, 7] := by
  refine ⟨?_, ?_, ?_⟩ <;>
    norm_num [writerFreqTrace, writerFreqTraceClaimed, chan_to_freq]

/-- C7 amended: the writer emits `latest_frequency = chan0 · CHAN_BW` at the
start of every sequence (the `i`-th emission is the `i`-th sequence's
frequency), and emits null exactly once, as the final event after the whole
read loop exits. -/
theorem writer_freq_emissions :
    ∀ (CHAN_BW : ℚ) (seqs : List ℕ),
      (writerFreqTrace CHAN_BW seqs).length = seqs.length + 1
      ∧ (writerFreqTrace CHAN_BW seqs).getLast? = some FreqEvent.null
      ∧ (writerFreqTrace CHAN_BW seqs).count FreqEvent.null = 1
      ∧ ∀ (i : ℕ) (h : i < seqs.length),
          (writerFreqTrace CHAN_BW seqs).get? i =
            some (FreqEvent.freq (chan_to_freq CHAN_BW (seqs.get ⟨i, h⟩))) := by
  intro cb seqs
  refine ⟨?_, ?_, ?_, ?_⟩
  · simp [writerFreqTrace]
  · rw [writerFreqTrace, List.getLast?_concat]
  · rw [writerFreqTrace, List.count_append]
    have h0 : (seqs.map fun chan0 =>
        FreqEvent.freq (chan_to_freq cb chan0)).count FreqEvent.null = 0 := by
      rw [List.count_eq_zero]
      simp
    rw [h0]
    rfl
  · intro i h
    rw [writerFreqTrace, List.get?_append (by simpa using h), List.get?_map,
      List.get?_eq_get h]
    rfl

/-- Witness for C7 at two concrete sequences, index 0. -/
theorem writer_freq_emissions_witness :
    (writerFreqTrace 1 [5, 7]).get? 0 =
      some (FreqEvent.freq (chan_to_freq 1 (([5, 7] : List ℕ).get ⟨0, by decide⟩))) :=
  (writer_freq_emissions 1 [5, 7]).2.2.2 0 (by decide)

/-- C9: evaluation of the sky-model fallback.  In slow mode the zeros
fallback survives the channel re-slice and every emitted gulp element is
exactly the injected noise term; in fast mode the fallback zeros are created
with the already-reduced channel count (48), the re-slice cuts them to 12,
and the `int32` repack assignment cannot broadcast, so the producer fails
before emitting any gulp. -/
theorem dummy_fallback_eval :
    visBaseIntFallback true = none ∧
    visBaseIntFallback false = some (fun _ _ _ => (0, 0)) ∧
    ∀ (noise : ℕ → ℕ → ℕ → ℤ × ℤ) (b c p : ℕ),
      dummyGulpElem (fun _ _ _ => (0, 0)) noise b c p = noise b c p := by
  refine ⟨rfl, ?_, ?_⟩
  · have h : scale1000 0 = 0 := by
      norm_num [scale1000, truncPy]
    simp [visBaseIntFallback, h, dummy_nchan, chan_step, slicedLen]
  · intro noise b c p
    simp [dummyGulpElem]
